import Mathlib

/-!
# Verification of the setlist PDF export module

A shallow embedding of `pdfexportmodule.js` (class `SetlistPDFExporter`) and
proofs about its adaptive text-fitting engine, font-size search, and page
composition.

Modelling conventions:

* JavaScript numbers are modelled as exact fractions (`Q` below): a numerator
  and a denominator kept unnormalized.  All constants in the source are short
  decimal literals, so every value occurring in the module is an exact decimal
  fraction; we model the arithmetic exactly (double rounding error in the JS
  engine is far below every decision threshold used by the module).
  Normalization (gcd) is deliberately avoided so that every operation is
  computable by the Lean kernel.
* JavaScript strings are sequences of UTF-16 units; titles and labels in this
  module are BMP text, for which a `Char` list is an exact model.
* The pdf drawing surface (`jsPDF`) is modelled as a trace of drawing
  operations (`Op`); its text-measurement oracle `getTextWidth`, whose result
  depends on the font size set beforehand, is an explicit parameter
  `measure : Q → String → Q` (font size → text → width).
-/

set_option maxRecDepth 4000

/-- Exact fraction model of a JS number.  The denominator is kept positive by
construction in every operation below; fractions are not reduced, so all
operations are plain integer arithmetic which the kernel can evaluate. -/
structure Q where
  num : Int
  den : Int
deriving DecidableEq, Repr

namespace Q

/-- Build the fraction `n / 1`. -/
def ofInt (n : Int) : Q := ⟨n, 1⟩

instance : OfNat Q n := ⟨⟨(n : Int), 1⟩⟩

def add (a b : Q) : Q := ⟨a.num * b.den + b.num * a.den, a.den * b.den⟩

def sub (a b : Q) : Q := ⟨a.num * b.den - b.num * a.den, a.den * b.den⟩

def mul (a b : Q) : Q := ⟨a.num * b.num, a.den * b.den⟩

/-- Division; the sign is kept on the numerator so that the denominator stays
positive.  (Division by zero yields denominator `0`; `floor` maps it to `0`.
The module never divides by zero on the inputs our theorems quantify over.) -/
def div (a b : Q) : Q :=
  let n := a.num * b.den
  let d := a.den * b.num
  if d < 0 then ⟨-n, -d⟩ else ⟨n, d⟩

instance : Add Q := ⟨add⟩
instance : Sub Q := ⟨sub⟩
instance : Mul Q := ⟨mul⟩
instance : Div Q := ⟨div⟩

/-- `a ≤ b` on fractions with positive denominators. -/
def ble (a b : Q) : Bool := a.num * b.den ≤ b.num * a.den

/-- `a < b` on fractions with positive denominators. -/
def blt (a b : Q) : Bool := a.num * b.den < b.num * a.den

/-- JS `Math.max`. -/
def qmax (a b : Q) : Q := if ble a b then b else a

/-- JS `Math.floor`, exact for fractions with positive denominator. -/
def floor (a : Q) : Int := if a.den = 0 then 0 else a.num.fdiv a.den

/-- JS `Math.round` (round half toward +∞), exact: `⌊x + 1/2⌋`. -/
def round (a : Q) : Int := floor (a + ⟨1, 2⟩)

theorem ble_refl (a : Q) : ble a a = true := by
  simp [ble]

theorem ble_qmax_left (a b : Q) : ble a (qmax a b) = true := by
  unfold qmax
  by_cases h : ble a b = true
  · simp [h]
  · simp [h, ble_refl]

end Q

/-! ## String plumbing

The module manipulates strings with JS idioms (`split(" ")`, `split(/\s+/)`,
`join(" ")`, `substring`, indexing).  Core Lean's string functions are
compiled by well-founded recursion, which the kernel cannot evaluate, so the
same operations are defined here structurally over `List Char`. -/

/-- JS `Array.prototype.join(sep)` for a one-character separator. -/
def joinSep (sep : Char) : List (List Char) → List Char
  | [] => []
  | [w] => w
  | w :: ws => w ++ sep :: joinSep sep ws

/-- Last element with a default (structural). -/
def lastD (d : α) : List α → α
  | [] => d
  | [a] => a
  | _ :: b :: rest => lastD d (b :: rest)

/-- Worker for `splitSpace`: JS `String.prototype.split(" ")`, which cuts at
every single space and keeps empty pieces. -/
def splitSpaceGo (cur : List Char) : List Char → List (List Char)
  | [] => [cur.reverse]
  | c :: cs => if c = ' ' then cur.reverse :: splitSpaceGo [] cs else splitSpaceGo (c :: cur) cs

/-- JS `s.split(" ")`. -/
def splitSpace (s : List Char) : List (List Char) := splitSpaceGo [] s

/-- The JS regex class `\s` (ECMAScript WhiteSpace ∪ LineTerminator): tab,
LF, vertical tab, form feed, CR, space, NBSP, Ogham space mark, the Unicode
space separators U+2000–U+200A, line/paragraph separator, narrow NBSP,
medium mathematical space, ideographic space, and the BOM U+FEFF.  (Lean's
`Char.isWhitespace` covers only space/tab/CR/LF and would be too narrow.) -/
def jsWhitespace (c : Char) : Bool :=
  c = '\t' || c = '\n' || c.val = 0x000B || c.val = 0x000C || c = '\r' ||
  c = ' ' || c.val = 0x00A0 || c.val = 0x1680 ||
  (0x2000 ≤ c.val && c.val ≤ 0x200A) ||
  c.val = 0x2028 || c.val = 0x2029 || c.val = 0x202F || c.val = 0x205F ||
  c.val = 0x3000 || c.val = 0xFEFF

/-- Worker for `splitWs`: JS `String.prototype.split(/\s+/)`.  Cutting at
maximal whitespace runs produces an empty first piece when the string starts
with whitespace and an empty last piece when it ends with whitespace; interior
pieces are the (nonempty) maximal non-whitespace runs.  `inRun` records
whether we are inside a whitespace run. -/
def splitWsGo (inRun : Bool) (cur : List Char) : List Char → List (List Char)
  | [] => if inRun then [[]] else [cur.reverse]
  | c :: cs =>
    if inRun then
      if jsWhitespace c then splitWsGo true [] cs else splitWsGo false [c] cs
    else
      if jsWhitespace c then cur.reverse :: splitWsGo true [] cs
      else splitWsGo false (c :: cur) cs

/-- JS `s.split(/\s+/)` (so `"" ↦ [""]`, `" " ↦ ["", ""]`, `"a  b" ↦ ["a", "b"]`). -/
def splitWs (s : List Char) : List (List Char) := splitWsGo false [] s

/-! ## Transliterator: `convertCzechCharacters` -/

/-- The `czechFallbacks` table, in source (insertion) order.  Every key and
every value is a single character, so the source's global string `replace` of
each entry is exactly a character substitution. -/
def czechFallbacks : List (Char × Char) :=
  [('á', 'a'), ('č', 'c'), ('ď', 'd'), ('é', 'e'), ('ě', 'e'), ('í', 'i'),
   ('ň', 'n'), ('ó', 'o'), ('ř', 'r'), ('š', 's'), ('ť', 't'), ('ú', 'u'),
   ('ů', 'u'), ('ý', 'y'), ('ž', 'z'),
   ('Á', 'A'), ('Č', 'C'), ('Ď', 'D'), ('É', 'E'), ('Ě', 'E'), ('Í', 'I'),
   ('Ň', 'N'), ('Ó', 'O'), ('Ř', 'R'), ('Š', 'S'), ('Ť', 'T'), ('Ú', 'U'),
   ('Ů', 'U'), ('Ý', 'Y'), ('Ž', 'Z')]

/-- `convertCzechCharacters(text)`: for each table entry in order, replace all
occurrences of the (single-character) key by the value. -/
def convertCzechCharacters (text : String) : String :=
  String.mk <| czechFallbacks.foldl
    (fun r kv => r.map fun c => if c = kv.1 then kv.2 else c) text.data

/-! ## Progressive shortener, stage 1: `applyVowelRemoval` -/

def isVowelChar (c : Char) : Bool :=
  c = 'a' || c = 'e' || c = 'i' || c = 'o' || c = 'u' ||
  c = 'A' || c = 'E' || c = 'I' || c = 'O' || c = 'U'

/-- Per-word body of `applyVowelRemoval`: words of length ≤ 3 are kept; longer
words keep `word[0]` and `word[word.length-1]`, strip `[aeiouAEIOU]` from
`word.substring(1, word.length-1)`, and if that removed the whole interior
while the interior had more than one character, keep the interior's first
character instead. -/
def vowelRemovalWord (w : List Char) : List Char :=
  if w.length ≤ 3 then w
  else
    let first := w.take 1
    let last := w.drop (w.length - 1)
    let middle := (w.drop 1).take (w.length - 2)
    let processed := middle.filter fun c => !(isVowelChar c)
    let processed := if processed.length = 0 && decide (1 < middle.length)
      then middle.take 1 else processed
    first ++ processed ++ last

/-- `applyVowelRemoval(phrase)`: `phrase.split(" ").map(...).join(" ")`. -/
def applyVowelRemoval (phrase : String) : String :=
  String.mk (joinSep ' ' ((splitSpace phrase.data).map vowelRemovalWord))

/-! ## Progressive shortener, stage 2: `applyMorphemeShortening` -/

/-- The `commonAbbreviations` dictionary local to `applyMorphemeShortening`,
in source order (the larger `morphemeMap` built elsewhere in the class is not
consulted by this function). -/
def commonAbbreviations : List (String × String) :=
  [("and", "&"), ("with", "w/"), ("without", "w/o"), ("the", "the"),
   ("through", "thru"), ("because", "bc"), ("before", "bfr"),
   ("after", "aftr"), ("between", "btwn"), ("around", "arnd"),
   ("tonight", "tnght"), ("something", "smthg"), ("someone", "smne"),
   ("together", "tgthr"), ("remember", "rmbr"), ("should", "shld"),
   ("would", "wld"), ("could", "cld"), ("never", "nvr"), ("every", "evry"),
   ("people", "ppl"), ("little", "ltl")]

/-- JS `\w` (ASCII word character), the character class underlying `\b`. -/
def isWordChar (c : Char) : Bool := c.isAlphanum || c = '_'

/-- Case-insensitive prefix test against a lowercase pattern (JS `i` flag;
all dictionary keys are ASCII letters). -/
def startsWithCI : List Char → List Char → Bool
  | [], _ => true
  | _ :: _, [] => false
  | k :: ks, c :: cs => (c.toLower = k) && startsWithCI ks cs

/-- `\b` on the left of a match that begins with a word character: start of
string or a non-word character before it. -/
def boundaryL : Option Char → Bool
  | none => true
  | some p => !(isWordChar p)

/-- `\b` on the right of a match that ends with a word character: end of
string or a non-word character after it. -/
def boundaryR : List Char → Bool
  | [] => true
  | r :: _ => !(isWordChar r)

/-- Scanner for `result.replace(new RegExp("\\b" + word + "\\b", "gi"), abbrev)`:
leftmost, non-overlapping, case-insensitive whole-word matches are replaced;
matching always proceeds on the original text (a replacement is not rescanned).
`prev` is the original character before the current position.  `fuel`
decreases by one per step while each step consumes at least one input
character, so `fuel = s.length` makes the fuel irrelevant. -/
def replaceWordGo (kw rep : List Char) : Nat → Option Char → List Char → List Char
  | 0, _, s => s
  | _ + 1, _, [] => []
  | fuel + 1, prev, c :: cs =>
    if boundaryL prev && startsWithCI kw (c :: cs) && boundaryR ((c :: cs).drop kw.length) then
      rep ++ replaceWordGo kw rep fuel
        (some (lastD c ((c :: cs).take kw.length))) ((c :: cs).drop kw.length)
    else
      c :: replaceWordGo kw rep fuel (some c) cs

/-- One dictionary entry applied to a string (whole-word, case-insensitive,
global). -/
def replaceWordAll (key rep s : String) : String :=
  match key.data with
  | [] => s
  | _ :: _ => String.mk (replaceWordGo key.data rep.data s.data.length none s.data)

/-- `applyMorphemeShortening(phrase)`: each `commonAbbreviations` entry is
applied in order to the running result. -/
def applyMorphemeShortening (phrase : String) : String :=
  commonAbbreviations.foldl (fun result kv => replaceWordAll kv.1 kv.2 result) phrase

/-- Companion scanner: does the pattern occur (same matching rules)?  Used to
state when `applyMorphemeShortening` leaves a phrase unchanged. -/
def occursWordGo (kw : List Char) : Nat → Option Char → List Char → Bool
  | 0, _, _ => false
  | _ + 1, _, [] => false
  | fuel + 1, prev, c :: cs =>
    if boundaryL prev && startsWithCI kw (c :: cs) && boundaryR ((c :: cs).drop kw.length) then
      true
    else
      occursWordGo kw fuel (some c) cs

/-- Whole-word case-insensitive occurrence test for a dictionary key. -/
def occursWordCI (key s : String) : Bool :=
  match key.data with
  | [] => false
  | _ :: _ => occursWordGo key.data s.data.length none s.data

/-! ## Progressive shortener, stage 4: `applyAggressiveShortening` -/

/-- `preserveWordShape(word, maxLength)`: keep `word` when it already fits;
otherwise keep first and last character and truncate the interior to
`maxLength - 2` characters; for `maxLength = 2` keep first and last; below
that keep the first character.  (The module only reaches the truncating
branches for words longer than the target, hence nonempty.) -/
def preserveWordShape (word : String) (maxLength : Int) : String :=
  let cs := word.data
  if (word.length : Int) ≤ maxLength then word
  else if 3 ≤ maxLength then
    let middleLength := maxLength - 2
    let middle := (cs.drop 1).take (cs.length - 2)
    let truncatedMiddle := middle.take middleLength.toNat
    String.mk (cs.take 1 ++ truncatedMiddle ++ cs.drop (cs.length - 1))
  else if 2 ≤ maxLength then
    String.mk (cs.take 1 ++ cs.drop (cs.length - 1))
  else
    String.mk (cs.take 1)

/-- The word loop of `applyAggressiveShortening`.  `total` is the character
budget `Math.floor(maxWidth / widthOf "M")`; the running `result` is the JS
accumulator (`usedChars` is recomputed as `result.length` exactly as in the
source).  `remainingWords = words.length - i` is the length of the unvisited
suffix.  `Math.floor(remainingChars / remainingWords)` on integers is
`Int.fdiv`. -/
def aggStep (total : Int) (word : String) (remainingWords : Int)
    (result : String) : String :=
  let remainingChars := total - (result.length : Int)
  let target := max 2 (min (word.length : Int) (remainingChars.fdiv remainingWords))
  let result' := if result = "" then result else result ++ " "
  let shortenedWord :=
    if (word.length : Int) ≤ target then word else preserveWordShape word target
  result' ++ shortenedWord

def aggLoop (total : Int) : List String → String → String
  | [], result => result
  | word :: rest, result =>
    if total - (result.length : Int) ≤ 0 then result
    else aggLoop total rest (aggStep total word ((rest.length : Int) + 1) result)

/-- `applyAggressiveShortening(phrase, maxWidth, fontSize)`: split on
whitespace runs, convert the width budget into a character budget using the
measured width of `"M"` at `fontSize`, and allocate characters across words
(≥ 2 per emitted word) with shape-preserving truncation, stopping when the
budget is exhausted.  No re-measurement happens after construction. -/
def applyAggressiveShortening (measure : Q → String → Q)
    (phrase : String) (maxWidth fontSize : Q) : String :=
  let words := (splitWs phrase.data).map String.mk
  let avgCharWidth := measure fontSize "M"
  let totalAvailableChars := Q.floor (maxWidth / avgCharWidth)
  aggLoop totalAvailableChars words ""

/-! ## `shortenPhrase` -/

/-- `shortenPhrase(phrase, maxWidth, fontSize, isSong)`. -/
def shortenPhrase (measure : Q → String → Q) (phrase : String)
    (maxWidth fontSize : Q) (isSong : Bool := true) : String :=
  let workingPhrase := convertCzechCharacters phrase
  if !isSong then workingPhrase
  else
    let textWidth := measure fontSize workingPhrase
    if Q.ble textWidth (maxWidth * ⟨9, 10⟩) then workingPhrase
    else
      let s1 := applyVowelRemoval workingPhrase
      if Q.ble (measure fontSize s1) maxWidth then s1
      else
        let s2 := applyMorphemeShortening workingPhrase
        if Q.ble (measure fontSize s2) maxWidth then s2
        else
          let s3 := applyVowelRemoval (applyMorphemeShortening workingPhrase)
          if Q.ble (measure fontSize s3) maxWidth then s3
          else
            applyAggressiveShortening measure s3 maxWidth fontSize

/-! ## `calculateMidshowFontSize` -/

/-- The `while (textWidth > maxWidth && fontSize > minFontSize)` loop with
`minFontSize = 8`, decrementing by 1pt.  Each iteration lowers the size by 1,
so `fuel` bounds the iteration count without affecting the result as long as
it exceeds the number of decrements needed to reach 8 (see
`midshowLoop_spec`). -/
def midshowLoop (measure : Q → String → Q) (text : String) (maxWidth : Q) :
    Nat → Q → Q
  | 0, fontSize => fontSize
  | fuel + 1, fontSize =>
    if Q.blt maxWidth (measure fontSize text) && Q.blt ⟨8, 1⟩ fontSize then
      midshowLoop measure text maxWidth fuel (fontSize - ⟨1, 1⟩)
    else fontSize

/-- `calculateMidshowFontSize(text, maxWidth, baseFontSize)`: transliterate,
then shrink from `baseFontSize` in 1pt steps while the measured width exceeds
`maxWidth` and the size exceeds 8pt.  The fuel — one more than the number of
whole points between `baseFontSize` and the 8pt guard — always dominates the
number of decrements (proved in `midshowLoop_spec`), so it is not a semantic
bound. -/
def calculateMidshowFontSize (measure : Q → String → Q)
    (text : String) (maxWidth baseFontSize : Q) : Q :=
  let workingText := convertCzechCharacters text
  midshowLoop measure workingText maxWidth
    ((baseFontSize.num - 8 * baseFontSize.den).toNat + 1) baseFontSize

/-! ## Data model and page geometry -/

/-- A setlist entry as consumed by the module: a JS object with `type`
(`"midshow"` marks a break; anything else is a song), `song` (song title),
`text` (break label), optional `duration` and `notes`. -/
structure SetlistItem where
  type : String := ""
  song : String := ""
  text : String := ""
  duration : Option Q := none
  notes : Option String := none
deriving DecidableEq, Repr

/-- A catalog record from the external `songs` array. -/
structure SongRec where
  name : String
  duration : Option Q := none
  vibe : Option String := none
deriving DecidableEq, Repr

/-- Result of the font-size calculation (fields as in the source object). -/
structure FontSizePlan where
  songFontSize : Q
  midshowFontSize : Q
deriving DecidableEq, Repr

/-- `this.PT_TO_MM = 0.3528`. -/
def PT_TO_MM : Q := ⟨3528, 10000⟩

/-- `this.pageWidth = 210`. -/
def pageWidth : Q := ⟨210, 1⟩

/-- `this.pageHeight = 297`. -/
def pageHeight : Q := ⟨297, 1⟩

/-- `this.margin = 8`. -/
def pageMargin : Q := ⟨8, 1⟩

/-- `this.contentWidth = pageWidth - margin * 2`. -/
def contentWidth : Q := pageWidth - pageMargin * ⟨2, 1⟩

/-- `this.contentHeight = pageHeight - margin * 2`. -/
def contentHeight : Q := pageHeight - pageMargin * ⟨2, 1⟩

/-- Number of song entries: `setlist.filter(i => i.type !== "midshow").length`. -/
def songCountOf (setlist : List SetlistItem) : Nat :=
  (setlist.filter fun i => i.type ≠ "midshow").length

/-! ## Font-size search -/

/-- `availableHeight = contentHeight - 20` (the fixed reserve). -/
def availableHeight : Q := contentHeight - ⟨20, 1⟩

/-- The estimated stacked height computed inside the candidate loop of
`calculateSinglePageSizes`: per entry `fontSize * PT_TO_MM * 1.05` (song size
for songs, midshow size for breaks), plus `fontSize * PT_TO_MM * 0.15` before
each midshow entry that is not the first setlist entry. -/
def estHeight (setlist : List SetlistItem) (songSize midshowSize : Q) : Q :=
  setlist.enum.foldl
    (fun acc p =>
      let isSong := p.2.type ≠ "midshow"
      let fontSize := if isSong then songSize else midshowSize
      let lineHeight := fontSize * PT_TO_MM * ⟨105, 100⟩
      let acc := if !isSong && decide (0 < p.1)
        then acc + fontSize * PT_TO_MM * ⟨15, 100⟩ else acc
      acc + lineHeight)
    0

/-- The candidate sizes of `for (let size = 60; size >= 24; size -= 2)`. -/
def sizeCandidates : List Q :=
  [⟨60, 1⟩, ⟨58, 1⟩, ⟨56, 1⟩, ⟨54, 1⟩, ⟨52, 1⟩, ⟨50, 1⟩, ⟨48, 1⟩, ⟨46, 1⟩,
   ⟨44, 1⟩, ⟨42, 1⟩, ⟨40, 1⟩, ⟨38, 1⟩, ⟨36, 1⟩, ⟨34, 1⟩, ⟨32, 1⟩, ⟨30, 1⟩,
   ⟨28, 1⟩, ⟨26, 1⟩, ⟨24, 1⟩]

/-- Does candidate `size` pass the height test of the loop body
(`estimatedHeight <= availableHeight` with `midshowSize = max(16, size*0.6)`)? -/
def fitsSinglePage (setlist : List SetlistItem) (size : Q) : Bool :=
  Q.ble (estHeight setlist size (Q.qmax ⟨16, 1⟩ (size * ⟨6, 10⟩))) availableHeight

/-- The candidate loop: `songSize` is assigned on every iteration and the
loop `break`s at the first fitting candidate, so the final value is the first
fitting candidate, or the last candidate when none fits; `last` carries the
previous assignment (initially 32 from the declaration, never returned since
the candidate list is nonempty). -/
def searchLoop (fits : Q → Bool) : List Q → Q → Q
  | [], last => last
  | c :: cs, _ => if fits c then c else searchLoop fits cs c

/-- `calculateSinglePageSizes(setlist)`. -/
def calculateSinglePageSizes (setlist : List SetlistItem) : FontSizePlan :=
  let songSize := searchLoop (fitsSinglePage setlist) sizeCandidates ⟨32, 1⟩
  { songFontSize := Q.qmax ⟨24, 1⟩ songSize
    midshowFontSize := Q.qmax ⟨14, 1⟩ (Q.qmax ⟨16, 1⟩ (songSize * ⟨6, 10⟩)) }

/-- `calculateFontSizes(setlist)`: single-page search for at most 9 songs,
fixed multi-page sizes 42/28 otherwise. -/
def calculateFontSizes (setlist : List SetlistItem) : FontSizePlan :=
  if songCountOf setlist ≤ 9 then calculateSinglePageSizes setlist
  else { songFontSize := ⟨42, 1⟩, midshowFontSize := ⟨28, 1⟩ }

/-! ## Drawing surface trace -/

/-- One operation sent to the drawing surface.  `textUndefX` records the
organizer's notes draw call, whose x position `colPositions.notes` is
`undefined` in the source. -/
inductive Op where
  | setFont (family style : String)
  | setFontSize (size : Q)
  | text (s : String) (x y : Q)
  | textUndefX (s : String) (y : Q)
  | line (x1 y1 x2 y2 : Q)
  | addPage
  | save (filename : String)
deriving DecidableEq, Repr

/-- `${n}`.padStart(2, "0")`. -/
def pad2 (n : Int) : String :=
  let s := toString n
  if s.length < 2 then "0" ++ s else s

/-- `formatTime(minutes)`: `MM:SS` from minutes.  `Math.round` is half-up
(`⌊x + 1/2⌋`), `Math.floor(x/60)` on an integer is `Int.fdiv`, and JS `%` is
the truncated remainder `Int.tmod` (all values are nonnegative in practice,
where the conventions agree). -/
def formatTime (minutes : Q) : String :=
  let totalSeconds := Q.round (minutes * ⟨60, 1⟩)
  let mins := totalSeconds.fdiv 60
  let secs := totalSeconds.tmod 60
  pad2 mins ++ ":" ++ pad2 secs

/-- The resolved duration of a song's `duration` field: JS `d || 3` (missing
or zero falls back to 3). -/
def durOrDefault (d : Option Q) : Q :=
  match d with
  | none => ⟨3, 1⟩
  | some d => if d.num = 0 then ⟨3, 1⟩ else d

/-- `calculateTotalDuration(setlist)`: 1 minute per midshow, `duration || 3`
per song. -/
def calculateTotalDuration (setlist : List SetlistItem) : Q :=
  setlist.foldl
    (fun total item =>
      if item.type = "midshow" then total + ⟨1, 1⟩
      else total + durOrDefault item.duration)
    0

/-- `wrapText(text, maxWidth, fontSize)`: greedy word wrap on spaces using
the measurement oracle (the source sets the font size and measures; the
set-size call is measurement state only and is not part of the drawn trace). -/
def wrapText (measure : Q → String → Q) (text : String)
    (maxWidth fontSize : Q) : List String :=
  let words := (splitSpace text.data).map String.mk
  let st := words.foldl
    (fun (st : List String × String) word =>
      let lines := st.1
      let currentLine := st.2
      let testLine := currentLine ++ (if currentLine = "" then "" else " ") ++ word
      if Q.ble (measure fontSize testLine) maxWidth then (lines, testLine)
      else ((if currentLine = "" then lines else lines ++ [currentLine]), word))
    ([], "")
  if st.2 = "" then st.1 else st.1 ++ [st.2]

/-! ## Stage view: `addSetlistContent` -/

/-- `addSetlistContent(setlist)` as a trace of drawing operations.  Songs are
drawn bold at `songFontSize` with text shortened by `shortenPhrase`; midshow
entries are drawn italic, indented 15mm, at the per-label size from
`calculateMidshowFontSize`, with a small pre-gap after the first entry; page
breaks happen only in multi-page mode (more than 9 songs). -/
def addSetlistContent (measure : Q → String → Q)
    (setlist : List SetlistItem) : List Op :=
  let plan := calculateFontSizes setlist
  let forceSinglePage := songCountOf setlist ≤ 9
  let st := setlist.enum.foldl
    (fun (st : Q × List Op) p =>
      let yPosition := st.1
      let ops := st.2
      let index := p.1
      let item := p.2
      let isSong := item.type ≠ "midshow"
      let text := if isSong then item.song else item.text
      let maxWidth := if isSong then contentWidth else contentWidth - ⟨15, 1⟩
      let actualFontSize :=
        if isSong then plan.songFontSize
        else calculateMidshowFontSize measure text maxWidth plan.midshowFontSize
      let yPosition :=
        if !isSong && decide (0 < index) then
          yPosition + (if forceSinglePage
            then actualFontSize * PT_TO_MM * ⟨1, 10⟩
            else actualFontSize * PT_TO_MM * ⟨2, 10⟩)
        else yPosition
      let displayText := shortenPhrase measure text maxWidth actualFontSize isSong
      let ops := ops ++ [Op.setFontSize actualFontSize]
      let ops := ops ++ [if !isSong then Op.setFont "helvetica" "italic"
                         else Op.setFont "helvetica" "bold"]
      let xPos := if isSong then pageMargin else pageMargin + ⟨15, 1⟩
      let baselineOffset := actualFontSize * PT_TO_MM * ⟨8, 10⟩
      let ops := ops ++ [Op.text displayText xPos (yPosition + baselineOffset)]
      let lineHeight := if forceSinglePage
        then actualFontSize * PT_TO_MM * ⟨105, 100⟩
        else actualFontSize * PT_TO_MM * ⟨115, 100⟩
      let yPosition := yPosition + lineHeight
      if !forceSinglePage && Q.blt (pageHeight - pageMargin) (yPosition + lineHeight) then
        (pageMargin + ⟨15, 1⟩, ops ++ [Op.addPage])
      else (yPosition, ops))
    (pageMargin + ⟨15, 1⟩, [Op.setFont "helvetica" "bold"])
  st.2

/-! ## Organizer view: `addOrganizerSection` -/

/-- Render of `${duration}:00`'s number part: exact for integer values (the
only rendering the organizer performs is layout plumbing). -/
def qToString (q : Q) : String :=
  if q.den = 1 then toString q.num else toString q.num ++ "/" ++ toString q.den

/-- `addOrganizerSection(setlist)` as a trace of drawing operations.
`windowSongs` models the process-wide `window.songs` catalog the section
reads.  (The source also computes a locale date string here but never uses
it.) -/
def addOrganizerSection (measure : Q → String → Q)
    (setlist : List SetlistItem) (windowSongs : Option (List SongRec)) : List Op :=
  let lineHeight := ⟨14, 1⟩ * PT_TO_MM
  let sectionSpacing := ⟨8, 1⟩ * PT_TO_MM
  let colTime := pageMargin
  let colTitle := pageMargin + ⟨25, 1⟩
  let colVibe := pageMargin + ⟨110, 1⟩
  let colDuration := pageMargin + ⟨160, 1⟩
  let totalDuration := calculateTotalDuration setlist
  let yPosition := pageMargin + ⟨10, 1⟩
  let ops : List Op :=
    [Op.setFont "helvetica" "bold", Op.setFontSize ⟨18, 1⟩,
     Op.text "SETLIST - ORGANIZER INFORMATION" pageMargin yPosition]
  let yPosition := yPosition + lineHeight * ⟨15, 10⟩
  let ops := ops ++ [Op.setFont "helvetica" "normal", Op.setFontSize ⟨11, 1⟩,
    Op.text ("Total Duration: " ++ formatTime totalDuration) pageMargin yPosition]
  let yPosition := yPosition + lineHeight * ⟨8, 10⟩
  let ops := ops ++
    [Op.text ("Total Songs: " ++ toString (songCountOf setlist)) pageMargin yPosition]
  let yPosition := yPosition + sectionSpacing * ⟨25, 10⟩
  let ops := ops ++ [Op.setFont "helvetica" "bold", Op.setFontSize ⟨10, 1⟩,
    Op.line pageMargin (yPosition - ⟨5, 1⟩) (pageMargin + contentWidth) (yPosition - ⟨5, 1⟩),
    Op.text "TIME" colTime yPosition, Op.text "TITLE" colTitle yPosition,
    Op.text "VIBE/TYPE" colVibe yPosition, Op.text "DURATION" colDuration yPosition]
  let yPosition := yPosition + ⟨3, 1⟩
  let ops := ops ++
    [Op.line pageMargin yPosition (pageMargin + contentWidth) yPosition]
  let yPosition := yPosition + lineHeight * ⟨8, 10⟩
  let ops := ops ++ [Op.setFont "helvetica" "normal", Op.setFontSize ⟨9, 1⟩]
  let st := setlist.foldl
    (fun (st : Q × Q × List Op) item =>
      let yPosition := st.1
      let currentTime := st.2.1
      let ops := st.2.2
      -- page break with header redraw
      let brk := Q.blt (pageHeight - pageMargin - ⟨20, 1⟩) yPosition
      let yPosition := if brk then pageMargin + ⟨25, 1⟩ else yPosition
      let ops := if brk then
          ops ++ [Op.addPage, Op.setFont "helvetica" "bold", Op.setFontSize ⟨10, 1⟩,
            Op.line pageMargin (yPosition - ⟨1, 1⟩) (pageMargin + contentWidth) (yPosition - ⟨1, 1⟩),
            Op.text "TIME" colTime yPosition, Op.text "TITLE" colTitle yPosition,
            Op.text "VIBE/TYPE" colVibe yPosition, Op.text "DURATION" colDuration yPosition]
        else ops
      let yPosition := if brk then yPosition + ⟨5, 1⟩ else yPosition
      let ops := if brk then
          ops ++ [Op.line pageMargin yPosition (pageMargin + contentWidth) yPosition,
            Op.setFont "helvetica" "normal", Op.setFontSize ⟨9, 1⟩]
        else ops
      let yPosition := if brk then yPosition + lineHeight * ⟨1, 1⟩ else yPosition
      -- row
      let isSong := item.type ≠ "midshow"
      let songData : Option SongRec :=
        if isSong then
          match windowSongs with
          | some songs => songs.find? fun s => s.name = item.song
          | none => none
        else none
      let duration : Q := if isSong
        then durOrDefault (songData.bind SongRec.duration)
        else ⟨1, 1⟩
      let startTime := formatTime currentTime
      let endTime := formatTime (currentTime + duration)
      let ops := ops ++ [Op.text (startTime ++ " - " ++ endTime) colTime yPosition]
      let title := convertCzechCharacters (if isSong then item.song else item.text)
      let wrappedTitle := wrapText measure title ⟨80, 1⟩ ⟨9, 1⟩
      let tst := wrappedTitle.foldl
        (fun (tst : List Op × Q) ln =>
          (tst.1 ++ [Op.text ln colTitle (yPosition + tst.2)],
           tst.2 + lineHeight * ⟨9, 10⟩))
        ([], 0)
      let ops := ops ++ tst.1
      let titleYOffset := tst.2
      let ops := if isSong then
          let vibe := match songData with
            | none => "Standard"
            | some sd => match sd.vibe with
              | none => "Standard"
              | some v => if v = "" then "Standard" else v
          ops ++ [Op.text (convertCzechCharacters vibe) colVibe yPosition]
        else
          ops ++ [Op.setFont "helvetica" "italic",
            Op.text "Midshow Break" colVibe yPosition,
            Op.setFont "helvetica" "normal"]
      let ops := ops ++ [Op.text (qToString duration ++ ":00") colDuration yPosition]
      let ops := match item.notes with
        | some notes => ops ++ [Op.textUndefX (convertCzechCharacters notes) yPosition]
        | none => ops
      let currentTime := currentTime + duration
      let rowHeight := Q.qmax lineHeight titleYOffset
      let yPosition := yPosition + rowHeight
      (yPosition, currentTime, ops))
    (yPosition, (0 : Q), ops)
  let yPosition := st.1
  let ops := st.2.2
  -- summary
  let yPosition := yPosition + sectionSpacing
  let ops := ops ++
    [Op.line pageMargin yPosition (pageMargin + contentWidth) yPosition]
  let yPosition := yPosition + lineHeight
  let ops := ops ++ [Op.setFont "helvetica" "bold", Op.setFontSize ⟨11, 1⟩,
    Op.text "SUMMARY" pageMargin yPosition]
  let yPosition := yPosition + lineHeight
  let ops := ops ++ [Op.setFont "helvetica" "normal", Op.setFontSize ⟨10, 1⟩]
  let songCount := songCountOf setlist
  let midshowCount := setlist.length - songCount
  let ops := ops ++
    [Op.text ("Total Songs: " ++ toString songCount) pageMargin yPosition]
  let yPosition := yPosition + lineHeight * ⟨8, 10⟩
  let ops := ops ++
    [Op.text ("Midshow Breaks: " ++ toString midshowCount) pageMargin yPosition]
  let yPosition := yPosition + lineHeight * ⟨8, 10⟩
  let ops := ops ++
    [Op.text ("Estimated Total Time: " ++ formatTime totalDuration) pageMargin yPosition]
  let yPosition := yPosition + lineHeight * ⟨8, 10⟩
  let ops := ops ++
    [Op.text ("Expected End Time: " ++ formatTime totalDuration ++ " after start")
      pageMargin yPosition]
  ops

/-! ## `export` -/

/-- `export(setlist, songs)` (named `exportSetlist` here because `export` is a
Lean keyword).  An empty setlist returns before any document is created; a
nonempty one creates a document, stashes `songs` into `window.songs` when
provided, draws the stage view, a page break, the organizer section, and
saves under a dated file name.  The returned value is the trace of drawing
operations, `none` when no document was created.  `windowSongs` is the prior
value of the `window.songs` global; `today` is the locale date string. -/
def exportSetlist (measure : Q → String → Q) (setlist : List SetlistItem)
    (songs : Option (List SongRec)) (windowSongs : Option (List SongRec))
    (today : String) : Option (List Op) :=
  if setlist.length = 0 then none
  else
    let windowSongs := match songs with
      | some s => some s
      | none => windowSongs
    some (addSetlistContent measure setlist ++ [Op.addPage] ++
      addOrganizerSection measure setlist windowSongs ++
      [Op.save ("setlist-" ++
        String.mk (today.data.map fun c => if c = '/' then '-' else c) ++ ".pdf")])

/-! ## Shared helpers for the proofs -/

/-- The common length-based width oracle used in concrete instantiations:
every character is 1mm wide at every font size. -/
def lenMeasure : Q → String → Q := fun _ s => ⟨(s.length : Int), 1⟩

/-- A width oracle that declares every string 1000mm wide (nothing ever
fits). -/
def hugeMeasure : Q → String → Q := fun _ _ => ⟨1000, 1⟩

/-- A song entry (any `type` other than `"midshow"`). -/
def songItem (t : String) : SetlistItem := { type := "song", song := t }

/-- A midshow (break) entry. -/
def midshowItem (lbl : String) : SetlistItem := { type := "midshow", text := lbl }

/-- Applying a list of single-character substitutions to a whole string is
the same as applying the composed per-character substitution pointwise. -/
theorem foldl_subst_eq_map (l : List (Char × Char)) :
    ∀ cs : List Char,
      l.foldl (fun r kv => r.map fun c => if c = kv.1 then kv.2 else c) cs =
        cs.map fun c => l.foldl (fun c kv => if c = kv.1 then kv.2 else c) c := by
  induction l with
  | nil => intro cs; simp
  | cons kv t ih =>
    intro cs
    simp only [List.foldl_cons]
    rw [ih, List.map_map]
    rfl

/-- The composed per-character substitution of `czechFallbacks`. -/
def charConvert (c : Char) : Char :=
  czechFallbacks.foldl (fun c kv => if c = kv.1 then kv.2 else c) c

/-- A character either survives the substitution chain unchanged or ends as
one of the table's values. -/
theorem foldl_subst_eq_or_mem (l : List (Char × Char)) :
    ∀ c : Char,
      l.foldl (fun c kv => if c = kv.1 then kv.2 else c) c = c ∨
        l.foldl (fun c kv => if c = kv.1 then kv.2 else c) c ∈ l.map Prod.snd := by
  induction l with
  | nil => intro c; left; rfl
  | cons kv t ih =>
    intro c
    simp only [List.foldl_cons, List.map_cons]
    rcases ih (if c = kv.1 then kv.2 else c) with h2 | h2
    · rw [h2]
      by_cases h : c = kv.1
      · right; simp [h]
      · left; simp [h]
    · right; exact List.mem_cons_of_mem _ h2

/-- Every value of the table is left fixed by the composed substitution
(no value is a key that maps elsewhere). -/
theorem charConvert_values_fixed :
    ∀ v ∈ czechFallbacks.map Prod.snd, charConvert v = v := by decide

/-- The composed substitution is idempotent on every character. -/
theorem charConvert_idem (c : Char) : charConvert (charConvert c) = charConvert c := by
  rcases foldl_subst_eq_or_mem czechFallbacks c with h | h
  · have hc : charConvert c = c := h
    rw [hc, hc]
  · exact charConvert_values_fixed _ h

/-- `convertCzechCharacters` acts pointwise as `charConvert`. -/
theorem convertCzechCharacters_data (s : String) :
    (convertCzechCharacters s).data = s.data.map charConvert := by
  unfold convertCzechCharacters
  rw [foldl_subst_eq_map]
  rfl

/-- Claim C7: transliteration is idempotent — `convertCzechCharacters` applied
twice equals `convertCzechCharacters` applied once, for every string, and
indeed no output of the `czechFallbacks` table is itself a table key. -/
theorem claim7_transliteration_idempotent :
    (∀ s : String,
      convertCzechCharacters (convertCzechCharacters s) = convertCzechCharacters s) ∧
    czechFallbacks.all (fun kv => czechFallbacks.all fun kv2 => kv.2 != kv2.1) = true := by
  constructor
  · intro s
    have hcc : ∀ a ∈ s.data, charConvert (charConvert a) = charConvert a := fun a _ =>
      charConvert_idem a
    have h : (convertCzechCharacters (convertCzechCharacters s)).data =
        (convertCzechCharacters s).data := by
      rw [convertCzechCharacters_data (convertCzechCharacters s),
        convertCzechCharacters_data s, List.map_map]
      simp only [Function.comp_def]
      rw [List.map_congr_left hcc]
    exact String.ext h
  · decide

/-- Claim C6: with `isSong = false` (midshow labels), `shortenPhrase` returns
exactly the transliterated phrase — break text is never shortened. -/
theorem claim6_break_invariance
    (measure : Q → String → Q) (phrase : String) (maxWidth fontSize : Q) :
    shortenPhrase measure phrase maxWidth fontSize false = convertCzechCharacters phrase :=
  rfl

/-- Claim C3: the unchanged-phrase check uses the 90% threshold (inclusive,
so width exactly `0.9 × maxWidth` returns the transliterated phrase
unchanged); past it, each of stages 1–3 is accepted exactly when its
re-measured width is at most `maxWidth` itself. -/
theorem claim3_trigger_thresholds
    (measure : Q → String → Q) (phrase : String) (maxWidth fontSize : Q) :
    (Q.ble (measure fontSize (convertCzechCharacters phrase)) (maxWidth * ⟨9, 10⟩) = true →
      shortenPhrase measure phrase maxWidth fontSize true = convertCzechCharacters phrase) ∧
    (Q.ble (measure fontSize (convertCzechCharacters phrase)) (maxWidth * ⟨9, 10⟩) = false →
      (Q.ble (measure fontSize (applyVowelRemoval (convertCzechCharacters phrase)))
          maxWidth = true →
        shortenPhrase measure phrase maxWidth fontSize true =
          applyVowelRemoval (convertCzechCharacters phrase)) ∧
      (Q.ble (measure fontSize (applyVowelRemoval (convertCzechCharacters phrase)))
          maxWidth = false →
        Q.ble (measure fontSize (applyMorphemeShortening (convertCzechCharacters phrase)))
          maxWidth = true →
        shortenPhrase measure phrase maxWidth fontSize true =
          applyMorphemeShortening (convertCzechCharacters phrase)) ∧
      (Q.ble (measure fontSize (applyVowelRemoval (convertCzechCharacters phrase)))
          maxWidth = false →
        Q.ble (measure fontSize (applyMorphemeShortening (convertCzechCharacters phrase)))
          maxWidth = false →
        Q.ble (measure fontSize
            (applyVowelRemoval (applyMorphemeShortening (convertCzechCharacters phrase))))
          maxWidth = true →
        shortenPhrase measure phrase maxWidth fontSize true =
          applyVowelRemoval (applyMorphemeShortening (convertCzechCharacters phrase))) ∧
      (Q.ble (measure fontSize (applyVowelRemoval (convertCzechCharacters phrase)))
          maxWidth = false →
        Q.ble (measure fontSize (applyMorphemeShortening (convertCzechCharacters phrase)))
          maxWidth = false →
        Q.ble (measure fontSize
            (applyVowelRemoval (applyMorphemeShortening (convertCzechCharacters phrase))))
          maxWidth = false →
        shortenPhrase measure phrase maxWidth fontSize true =
          applyAggressiveShortening measure
            (applyVowelRemoval (applyMorphemeShortening (convertCzechCharacters phrase)))
            maxWidth fontSize)) := by
  constructor
  · intro h0
    simp [shortenPhrase, h0]
  · intro h0
    refine ⟨fun h1 => ?_, fun h1 h2 => ?_, fun h1 h2 h3 => ?_, fun h1 h2 h3 => ?_⟩
    · simp [shortenPhrase, h0, h1]
    · simp [shortenPhrase, h0, h1, h2]
    · simp [shortenPhrase, h0, h1, h2, h3]
    · simp [shortenPhrase, h0, h1, h2, h3]

/-- Witness for C3 at the exact-90% boundary: a 9-character ASCII phrase with
a budget of 10mm under the 1mm-per-character oracle measures exactly
`0.9 × maxWidth` and is returned unchanged. -/
theorem claim3_trigger_thresholds_witness :
    Q.ble (lenMeasure ⟨12, 1⟩ (convertCzechCharacters "abcdefghi")) (⟨10, 1⟩ * ⟨9, 10⟩)
      = true ∧
    shortenPhrase lenMeasure "abcdefghi" ⟨10, 1⟩ ⟨12, 1⟩ true = convertCzechCharacters "abcdefghi" :=
  ⟨by decide, (claim3_trigger_thresholds lenMeasure "abcdefghi" ⟨10, 1⟩ ⟨12, 1⟩).1 (by decide)⟩

/-- Counterexample to claim C1 as stated: with a 1mm-per-character oracle and
a 6mm budget, no stage of `"Something Wonderful Tonight"` fits, and the
returned text is `applyAggressiveShortening` of the *combined stage output*
(`"sg Wl tt"`), not of the original transliterated phrase (which would give
`"Sg Wl Tt"`). -/
theorem claim1_counterexample :
    Q.ble (lenMeasure ⟨12, 1⟩ (convertCzechCharacters "Something Wonderful Tonight"))
      (⟨6, 1⟩ * ⟨9, 10⟩) = false ∧
    Q.ble (lenMeasure ⟨12, 1⟩
      (applyVowelRemoval (convertCzechCharacters "Something Wonderful Tonight")))
      ⟨6, 1⟩ = false ∧
    Q.ble (lenMeasure ⟨12, 1⟩
      (applyMorphemeShortening (convertCzechCharacters "Something Wonderful Tonight")))
      ⟨6, 1⟩ = false ∧
    Q.ble (lenMeasure ⟨12, 1⟩
      (applyVowelRemoval
        (applyMorphemeShortening (convertCzechCharacters "Something Wonderful Tonight"))))
      ⟨6, 1⟩ = false ∧
    shortenPhrase lenMeasure "Something Wonderful Tonight" ⟨6, 1⟩ ⟨12, 1⟩ true = "sg Wl tt" ∧
    applyAggressiveShortening lenMeasure
      (convertCzechCharacters "Something Wonderful Tonight") ⟨6, 1⟩ ⟨12, 1⟩ = "Sg Wl Tt" ∧
    shortenPhrase lenMeasure "Something Wonderful Tonight" ⟨6, 1⟩ ⟨12, 1⟩ true ≠
      applyAggressiveShortening lenMeasure
        (convertCzechCharacters "Something Wonderful Tonight") ⟨6, 1⟩ ⟨12, 1⟩ := by
  decide

/-- Amended claim C1: past the 90% trigger, the stages are tried in the fixed
order vowel-removal, morpheme-substitution, morpheme-then-vowel-removal, each
computed from the original transliterated phrase, and the first whose
re-measured width fits is returned; when none fits, the terminal
`applyAggressiveShortening` output is returned unconditionally — computed
from the combined stage's output, not from the original phrase. -/
theorem claim1_stage_order
    (measure : Q → String → Q) (phrase : String) (maxWidth fontSize : Q)
    (h : Q.ble (measure fontSize (convertCzechCharacters phrase)) (maxWidth * ⟨9, 10⟩)
      = false) :
    shortenPhrase measure phrase maxWidth fontSize true =
      (([applyVowelRemoval (convertCzechCharacters phrase),
         applyMorphemeShortening (convertCzechCharacters phrase),
         applyVowelRemoval (applyMorphemeShortening (convertCzechCharacters phrase))].find?
          fun s => Q.ble (measure fontSize s) maxWidth).getD
        (applyAggressiveShortening measure
          (applyVowelRemoval (applyMorphemeShortening (convertCzechCharacters phrase)))
          maxWidth fontSize)) := by
  by_cases h1 : Q.ble (measure fontSize (applyVowelRemoval (convertCzechCharacters phrase)))
      maxWidth = true
  · simp [shortenPhrase, List.find?, h, h1]
  · by_cases h2 : Q.ble (measure fontSize
        (applyMorphemeShortening (convertCzechCharacters phrase))) maxWidth = true
    · simp [shortenPhrase, List.find?, h, h1, h2]
    · by_cases h3 : Q.ble (measure fontSize
          (applyVowelRemoval (applyMorphemeShortening (convertCzechCharacters phrase))))
          maxWidth = true
      · simp [shortenPhrase, List.find?, h, h1, h2, h3]
      · simp [shortenPhrase, List.find?, h, h1, h2, h3]

/-- Witness for the amended C1 on the counterexample configuration. -/
theorem claim1_stage_order_witness :
    Q.ble (lenMeasure ⟨12, 1⟩ (convertCzechCharacters "Something Wonderful Tonight"))
      (⟨6, 1⟩ * ⟨9, 10⟩) = false ∧
    shortenPhrase lenMeasure "Something Wonderful Tonight" ⟨6, 1⟩ ⟨12, 1⟩ true =
      (([applyVowelRemoval (convertCzechCharacters "Something Wonderful Tonight"),
         applyMorphemeShortening (convertCzechCharacters "Something Wonderful Tonight"),
         applyVowelRemoval (applyMorphemeShortening
           (convertCzechCharacters "Something Wonderful Tonight"))].find?
          fun s => Q.ble (lenMeasure ⟨12, 1⟩ s) ⟨6, 1⟩).getD
        (applyAggressiveShortening lenMeasure
          (applyVowelRemoval (applyMorphemeShortening
            (convertCzechCharacters "Something Wonderful Tonight")))
          ⟨6, 1⟩ ⟨12, 1⟩)) :=
  ⟨by decide,
    claim1_stage_order lenMeasure "Something Wonderful Tonight" ⟨6, 1⟩ ⟨12, 1⟩ (by decide)⟩

/-- Claim C4's word-level mapping, written as the claim words it: keep the
word's first and last character with all vowels stripped from the interior,
except that when stripping empties an interior that was longer than one
character, the interior's first character is kept; words of length at most 3
are returned unchanged. -/
def vrWordClaim (w : List Char) : List Char :=
  if w.length ≤ 3 then w
  else
    match w with
    | [] => []
    | c :: rest =>
      let interior := rest.dropLast
      let lst := lastD c rest
      let stripped := interior.filter fun ch => !(isVowelChar ch)
      let kept := if stripped = [] && decide (1 < interior.length)
        then interior.take 1 else stripped
      c :: (kept ++ [lst])

/-- Claim C4's reading of the whole stage, with *whitespace*-delimited words
(the maximal non-whitespace runs) rejoined by single spaces. -/
def vowelRemovalWhitespaceClaim (phrase : String) : String :=
  String.mk (joinSep ' '
    (((splitWs phrase.data).filter (· ≠ [])).map vrWordClaim))

/-- Dropping all but the last element yields the last element (with an
arbitrary default). -/
theorem drop_length_pred (d : α) :
    ∀ l : List α, l ≠ [] → l.drop (l.length - 1) = [lastD d l] := by
  intro l
  induction l with
  | nil => simp
  | cons a t ih =>
    intro _
    cases t with
    | nil => simp [lastD]
    | cons b t2 =>
      have h2 := ih (by simp)
      rw [show (a :: b :: t2).length - 1 = ((b :: t2).length - 1) + 1 by simp,
        List.drop_succ_cons, h2]
      rfl

/-- The source's take/drop/substring formulation of the vowel-removal word
map agrees with the claim's first/interior/last formulation. -/
theorem vowelRemovalWord_eq_claim (w : List Char) : vowelRemovalWord w = vrWordClaim w := by
  by_cases h : w.length ≤ 3
  · simp [vowelRemovalWord, vrWordClaim, h]
  · match w with
    | [] => simp at h
    | c :: rest =>
      have hr : rest ≠ [] := by
        intro he
        subst he
        simp at h
      simp only [vowelRemovalWord, vrWordClaim, if_neg h]
      rw [show (c :: rest).length - 1 = rest.length by simp]
      rw [show ((c :: rest).drop 1) = rest from rfl]
      rw [show (c :: rest).length - 2 = rest.length - 1 by simp]
      rw [show (c :: rest).drop rest.length = rest.drop (rest.length - 1) by
        cases rest with
        | nil => simp at hr
        | cons b t2 =>
          rw [show (b :: t2).length = ((b :: t2).length - 1) + 1 by simp,
            List.drop_succ_cons]
          simp]
      rw [drop_length_pred c rest hr, ← List.dropLast_eq_take]
      simp [List.length_eq_zero]

/-- Counterexample to claim C4 as stated: `applyVowelRemoval` splits on single
space characters (JS `split(" ")`), not on whitespace runs — on `"a  b"` the
source preserves the double space while the claim's whitespace-delimited
reading would collapse it. -/
theorem claim4_counterexample :
    applyVowelRemoval "a  b" = "a  b" ∧
    vowelRemovalWhitespaceClaim "a  b" = "a b" ∧
    applyVowelRemoval "a  b" ≠ vowelRemovalWhitespaceClaim "a  b" := by
  decide

/-- Amended claim C4: with *space*-delimited tokens (JS `split(" ")`, which
keeps empty tokens between consecutive spaces, so original spacing survives),
each token is mapped exactly as the claim describes — length ≤ 3 unchanged,
otherwise first and last kept with vowels stripped from the interior, the
interior's first character restored when stripping emptied an interior longer
than one character — and the tokens are rejoined with single spaces. -/
theorem claim4_amended :
    (∀ w : List Char, w.length ≤ 3 → vowelRemovalWord w = w) ∧
    (∀ w : List Char, vowelRemovalWord w = vrWordClaim w) ∧
    (∀ phrase : String, applyVowelRemoval phrase =
      String.mk (joinSep ' ' ((splitSpace phrase.data).map vrWordClaim))) := by
  refine ⟨fun w hw => by simp [vowelRemovalWord, hw], vowelRemovalWord_eq_claim, fun phrase => ?_⟩
  unfold applyVowelRemoval
  rw [List.map_congr_left fun w _ => vowelRemovalWord_eq_claim w]

/-- Witness for the amended C4 on a concrete short word. -/
theorem claim4_amended_witness : vowelRemovalWord ['o', 'f'] = ['o', 'f'] :=
  claim4_amended.1 ['o', 'f'] (by decide)

/-- If the scanner finds no whole-word occurrence, replacement is the
identity. -/
theorem replaceWordGo_no_occur (kw rep : List Char) :
    ∀ (fuel : Nat) (prev : Option Char) (s : List Char),
      occursWordGo kw fuel prev s = false → replaceWordGo kw rep fuel prev s = s := by
  intro fuel
  induction fuel with
  | zero => intro prev s _; rfl
  | succ fuel ih =>
    intro prev s h
    cases s with
    | nil => rfl
    | cons c cs =>
      by_cases hm : (boundaryL prev && startsWithCI kw (c :: cs) &&
          boundaryR ((c :: cs).drop kw.length)) = true
      · rw [occursWordGo, if_pos hm] at h
        exact absurd h (by simp)
      · rw [occursWordGo, if_neg hm] at h
        rw [replaceWordGo, if_neg hm, ih (some c) cs h]

/-- If no dictionary key occurs (whole-word, case-insensitive) in a phrase,
`applyMorphemeShortening` leaves it unchanged. -/
theorem applyMorphemeShortening_no_occur (phrase : String)
    (h : ∀ kv ∈ commonAbbreviations, occursWordCI kv.1 phrase = false) :
    applyMorphemeShortening phrase = phrase := by
  unfold applyMorphemeShortening
  have main : ∀ (l : List (String × String)) (p : String),
      (∀ kv ∈ l, occursWordCI kv.1 p = false) →
      l.foldl (fun result kv => replaceWordAll kv.1 kv.2 result) p = p := by
    intro l
    induction l with
    | nil => intro p _; rfl
    | cons kv t ih =>
      intro p hp
      have h1 : replaceWordAll kv.1 kv.2 p = p := by
        have hocc := hp kv (List.mem_cons_self kv t)
        unfold replaceWordAll
        unfold occursWordCI at hocc
        match hk : kv.1.data with
        | [] => rfl
        | k :: ks =>
          rw [hk] at hocc
          rw [replaceWordGo_no_occur _ _ _ _ _ hocc]
      rw [List.foldl_cons, h1]
      exact ih p fun kv2 h2 => hp kv2 (List.mem_cons_of_mem _ h2)
  exact main commonAbbreviations phrase h

/-- Claim C10: the morpheme stage matches its dictionary case-insensitively
but substitutes the literal lowercase abbreviation (`"Tonight" ↦ "tnght"`,
`"The" ↦ "the"`); words outside the 22-entry `commonAbbreviations` dictionary
keep their original form — in particular `"wonderful"` and `"light"`, which
appear only in the unused `morphemeMap`, are untouched. -/
theorem claim10_morpheme_substitution :
    applyMorphemeShortening "Tonight" = "tnght" ∧
    applyMorphemeShortening "The" = "the" ∧
    applyMorphemeShortening "wonderful light" = "wonderful light" ∧
    commonAbbreviations.length = 22 ∧
    ∀ phrase : String,
      (∀ kv ∈ commonAbbreviations, occursWordCI kv.1 phrase = false) →
      applyMorphemeShortening phrase = phrase :=
  ⟨by decide, by decide, by decide, by decide,
    fun phrase h => applyMorphemeShortening_no_occur phrase h⟩

/-- Witness for C10's no-occurrence clause on a concrete phrase. -/
theorem claim10_morpheme_substitution_witness :
    applyMorphemeShortening "Xylophone Dreams" = "Xylophone Dreams" :=
  claim10_morpheme_substitution.2.2.2.2 "Xylophone Dreams" (by decide)

/-- A string built from a nonempty character list is nonempty. -/
theorem mk_ne_empty {l : List Char} (h : l ≠ []) : String.mk l ≠ "" := by
  intro hc
  have h2 : l = [] := congrArg String.data hc
  exact h h2

/-- A nonempty string has a nonempty character list. -/
theorem data_ne_of_ne_empty {w : String} (h : w ≠ "") : w.data ≠ [] := by
  intro hd
  apply h
  have h2 : w = String.mk w.data := rfl
  rw [h2, hd]

/-- `preserveWordShape` never maps a nonempty word to the empty string: every
truncating branch keeps at least the word's first character. -/
theorem preserveWordShape_ne (word : String) (t : Int) (h : word ≠ "") :
    preserveWordShape word t ≠ "" := by
  have hd := data_ne_of_ne_empty h
  unfold preserveWordShape
  cases hcs : word.data with
  | nil => exact absurd hcs hd
  | cons c cs' =>
    split_ifs with h1 h2 h3
    · exact h
    · apply mk_ne_empty
      simp [hcs]
    · apply mk_ne_empty
      simp [hcs]
    · apply mk_ne_empty
      simp [hcs]

/-- One aggressive step with a nonempty accumulator stays nonempty. -/
theorem aggStep_ne_left (total : Int) (w : String) (n : Int) (r : String)
    (h : r ≠ "") : aggStep total w n r ≠ "" := by
  simp only [aggStep]
  split_ifs
  all_goals try exact absurd (by assumption) h
  all_goals intro hc
  all_goals have hx := congrArg String.data hc
  all_goals simp [String.data_append] at hx

/-- One aggressive step on a nonempty word from the empty accumulator yields
a nonempty string (the per-word target is at least 2, so a retained word is
never cut to nothing). -/
theorem aggStep_ne_right (total : Int) (w : String) (n : Int)
    (hw : w ≠ "") : aggStep total w n "" ≠ "" := by
  simp only [aggStep]
  split_ifs
  all_goals try exact hw
  all_goals exact preserveWordShape_ne w _ hw

/-- An empty word at the front of the queue is consumed from an empty
accumulator without emitting anything: its length 0 is below the ≥ 2 target,
so the word itself (empty) is appended with no separator. -/
theorem aggStep_empty_word (total : Int) (n : Int) :
    aggStep total (String.mk []) n "" = "" := by
  simp only [aggStep]
  split_ifs with h1 h2
  · rfl
  · exact absurd (le_trans (by decide : ((String.mk []).length : Int) ≤ 2)
      (le_max_left 2 _)) h2
  · exact absurd trivial h1
  · exact absurd trivial h1

/-- The aggressive word loop never erases an already nonempty accumulator. -/
theorem aggLoop_ne_of_ne (total : Int) :
    ∀ (l : List String) (r : String), r ≠ "" → aggLoop total l r ≠ "" := by
  intro l
  induction l with
  | nil => intro r h; exact h
  | cons word rest ih =>
    intro r h
    rw [aggLoop]
    split_ifs
    · exact h
    · exact ih _ (aggStep_ne_left _ _ _ _ h)

/-- With at least one budgeted character and a nonempty first word, the
aggressive word loop produces a nonempty result. -/
theorem aggLoop_head_ne (total : Int) (w : String) (rest : List String)
    (hw : w ≠ "") (ht : 1 ≤ total) : aggLoop total (w :: rest) "" ≠ "" := by
  rw [aggLoop]
  have h00 : (String.length "" : Int) = 0 := rfl
  split_ifs with h1
  · exfalso; omega
  · exact aggLoop_ne_of_ne _ _ _ (aggStep_ne_right _ _ _ hw)

/-- In non-run mode, the head of the split is the pending accumulator
extended by some suffix. -/
theorem splitWsGo_false_head :
    ∀ (s cur : List Char), ∃ t rest, splitWsGo false cur s = (cur.reverse ++ t) :: rest := by
  intro s
  induction s with
  | nil => intro cur; exact ⟨[], [], by simp [splitWsGo]⟩
  | cons c cs ih =>
    intro cur
    by_cases hc : jsWhitespace c = true
    · exact ⟨[], splitWsGo true [] cs, by simp [splitWsGo, hc]⟩
    · obtain ⟨t, rest, h⟩ := ih (c :: cur)
      refine ⟨c :: t, rest, ?_⟩
      simp only [splitWsGo, hc, if_neg, Bool.false_eq_true, ite_false, h,
        List.reverse_cons, List.append_assoc, List.singleton_append]

/-- Inside a whitespace run, if a non-whitespace character is still ahead the
next piece is nonempty. -/
theorem splitWsGo_true_head :
    ∀ s : List Char, s.any (fun c => !jsWhitespace c) = true →
      ∃ w rest, splitWsGo true [] s = w :: rest ∧ w ≠ [] := by
  intro s
  induction s with
  | nil => intro h; simp at h
  | cons c cs ih =>
    intro h
    by_cases hc : jsWhitespace c = true
    · have h2 : cs.any (fun c => !jsWhitespace c) = true := by
        simp [List.any_cons, hc] at h
        simpa using h
      obtain ⟨w, rest, hw, hne⟩ := ih h2
      exact ⟨w, rest, by simp [splitWsGo, hc, hw], hne⟩
    · obtain ⟨t, rest, ht⟩ := splitWsGo_false_head cs [c]
      exact ⟨c :: t, rest, by simp [splitWsGo, hc, ht], by simp⟩

/-- A phrase containing a non-whitespace character splits (JS `/\s+/`) into
either a nonempty first word, or an empty boundary word followed by a
nonempty word. -/
theorem splitWs_structure (s : List Char) (h : s.any (fun c => !jsWhitespace c) = true) :
    (∃ w rest, splitWs s = w :: rest ∧ w ≠ []) ∨
    (∃ w rest, splitWs s = [] :: w :: rest ∧ w ≠ []) := by
  cases s with
  | nil => simp at h
  | cons c cs =>
    by_cases hc : jsWhitespace c = true
    · right
      have h2 : cs.any (fun c => !jsWhitespace c) = true := by
        simp [List.any_cons, hc] at h
        simpa using h
      obtain ⟨w, rest, hw, hne⟩ := splitWsGo_true_head cs h2
      exact ⟨w, rest, by simp [splitWs, splitWsGo, hc, hw], hne⟩
    · left
      obtain ⟨t, rest, ht⟩ := splitWsGo_false_head cs [c]
      exact ⟨c :: t, rest, by simp [splitWs, splitWsGo, hc, ht], by simp⟩

/-- A leading empty word (from leading whitespace) is consumed without
spending budget or emitting characters. -/
theorem aggLoop_skip_empty (total : Int) (w : String) (rest : List String)
    (ht : 1 ≤ total) :
    aggLoop total (String.mk [] :: w :: rest) "" = aggLoop total (w :: rest) "" := by
  have h00 : (String.length "" : Int) = 0 := rfl
  rw [aggLoop]
  rw [if_neg (by omega : ¬(total - ((String.length "" : Nat) : Int) ≤ 0))]
  rw [aggStep_empty_word]

/-- Counterexample to claim C5 as stated: the phrase `" "` is nonempty and
the budget allows 5 characters, yet the stage returns the empty string —
`split(/\s+/)` turns a whitespace-only phrase into empty words only. -/
theorem claim5_counterexample :
    (" " : String) ≠ "" ∧
    1 ≤ Q.floor (⟨5, 1⟩ / lenMeasure ⟨12, 1⟩ "M") ∧
    applyAggressiveShortening lenMeasure " " ⟨5, 1⟩ ⟨12, 1⟩ = "" := by
  decide

/-- Amended claim C5: `preserveWordShape` always keeps at least one character
of a nonempty word, and on every phrase containing at least one
*non-whitespace* character, with a width budget allowing at least one
character, `applyAggressiveShortening` returns a nonempty string. -/
theorem claim5_amended :
    (∀ (w : String) (t : Int), w ≠ "" → preserveWordShape w t ≠ "") ∧
    (∀ (measure : Q → String → Q) (phrase : String) (maxWidth fontSize : Q),
      phrase.data.any (fun c => !jsWhitespace c) = true →
      1 ≤ Q.floor (maxWidth / measure fontSize "M") →
      applyAggressiveShortening measure phrase maxWidth fontSize ≠ "") := by
  refine ⟨fun w t h => preserveWordShape_ne w t h,
    fun measure phrase maxWidth fontSize hany ht => ?_⟩
  unfold applyAggressiveShortening
  rcases splitWs_structure phrase.data hany with ⟨w, rest, hw, hne⟩ | ⟨w, rest, hw, hne⟩
  · rw [hw]
    simp only [List.map_cons]
    exact aggLoop_head_ne _ _ _ (mk_ne_empty hne) ht
  · rw [hw]
    simp only [List.map_cons]
    rw [aggLoop_skip_empty _ _ _ ht]
    exact aggLoop_head_ne _ _ _ (mk_ne_empty hne) ht

/-- Witness for the amended C5: `" a"` (leading whitespace) still yields a
nonempty result under a 5-character budget. -/
theorem claim5_amended_witness :
    (" a".data.any (fun c => !jsWhitespace c) = true) ∧
    1 ≤ Q.floor (⟨5, 1⟩ / lenMeasure ⟨12, 1⟩ "M") ∧
    applyAggressiveShortening lenMeasure " a" ⟨5, 1⟩ ⟨12, 1⟩ ≠ "" :=
  ⟨by decide, by decide,
    claim5_amended.2 lenMeasure " a" ⟨5, 1⟩ ⟨12, 1⟩ (by decide) (by decide)⟩

/-- `lastD` ignores its default on nonempty lists. -/
theorem lastD_congr (d d' : α) : ∀ l : List α, l ≠ [] → lastD d l = lastD d' l := by
  intro l
  induction l with
  | nil => simp
  | cons a t ih =>
    intro _
    cases t with
    | nil => rfl
    | cons b t2 => exact ih (by simp)

/-- When no candidate fits, the loop runs through and leaves the last
assignment: the final element of the candidate list (or the initial value for
an empty list). -/
theorem searchLoop_all_false (fits : Q → Bool) :
    ∀ (l : List Q) (last : Q), (∀ c ∈ l, fits c = false) →
      searchLoop fits l last = lastD last l := by
  intro l
  induction l with
  | nil => intro last _; rfl
  | cons c cs ih =>
    intro last h
    rw [searchLoop, if_neg (by simp [h c (List.mem_cons_self c cs)])]
    rw [ih c fun x hx => h x (List.mem_cons_of_mem _ hx)]
    cases cs with
    | nil => rfl
    | cons b t => exact lastD_congr _ _ _ (by simp)

/-- On a descending candidate list, the loop returns the first fitting
candidate, which is then a fitting candidate at least as large as every
fitting candidate. -/
theorem searchLoop_first_fit (fits : Q → Bool) :
    ∀ (l : List Q) (last : Q),
      l.Pairwise (fun a b => Q.ble b a = true) →
      (∃ c ∈ l, fits c = true) →
      searchLoop fits l last ∈ l ∧ fits (searchLoop fits l last) = true ∧
        ∀ c ∈ l, fits c = true → Q.ble c (searchLoop fits l last) = true := by
  intro l
  induction l with
  | nil => intro last _ h; simp at h
  | cons c cs ih =>
    intro last hp hex
    rw [List.pairwise_cons] at hp
    by_cases hc : fits c = true
    · rw [searchLoop, if_pos hc]
      refine ⟨List.mem_cons_self c cs, hc, fun c2 h2 _ => ?_⟩
      rcases List.mem_cons.mp h2 with h3 | h3
      · rw [h3]; exact Q.ble_refl c
      · exact hp.1 c2 h3
    · rw [searchLoop, if_neg (by simp [hc])]
      have hex2 : ∃ c2 ∈ cs, fits c2 = true := by
        rcases hex with ⟨c2, hm, hf⟩
        rcases List.mem_cons.mp hm with h3 | h3
        · exact absurd (h3 ▸ hf) hc
        · exact ⟨c2, h3, hf⟩
      obtain ⟨hmem, hfits, hmax⟩ := ih c hp.2 hex2
      refine ⟨List.mem_cons_of_mem _ hmem, hfits, fun c2 h2 hf => ?_⟩
      rcases List.mem_cons.mp h2 with h3 | h3
      · exact absurd (h3 ▸ hf) hc
      · exact hmax c2 h3 hf

/-- Every candidate size is at least 24, and the list is descending. -/
theorem sizeCandidates_ge24 : ∀ c ∈ sizeCandidates, Q.ble ⟨24, 1⟩ c = true := by decide

/-- Amended claim C2: for at most 9 songs, the single-page search returns the
*largest fitting* candidate of {60, 58, …, 24} whenever some candidate
satisfies the height budget (estimated stacked height ≤ content height minus
the 20mm reserve); when no candidate fits it returns the smallest candidate
24 even though 24 does not satisfy the budget.  The returned sizes respect
the 24pt/14pt floors, and the break size is `max(14, max(16, songFontSize ×
0.6))`. -/
theorem claim2_amended (setlist : List SetlistItem) (h9 : songCountOf setlist ≤ 9) :
    (Q.ble ⟨24, 1⟩ (calculateFontSizes setlist).songFontSize = true ∧
      Q.ble ⟨14, 1⟩ (calculateFontSizes setlist).midshowFontSize = true) ∧
    (∀ c ∈ sizeCandidates, fitsSinglePage setlist c = true →
      Q.ble c (calculateFontSizes setlist).songFontSize = true) ∧
    ((∃ c ∈ sizeCandidates, fitsSinglePage setlist c = true) →
      (calculateFontSizes setlist).songFontSize ∈ sizeCandidates ∧
        fitsSinglePage setlist (calculateFontSizes setlist).songFontSize = true) ∧
    ((∀ c ∈ sizeCandidates, fitsSinglePage setlist c = false) →
      (calculateFontSizes setlist).songFontSize = ⟨24, 1⟩) ∧
    (calculateFontSizes setlist).midshowFontSize =
      Q.qmax ⟨14, 1⟩ (Q.qmax ⟨16, 1⟩ ((calculateFontSizes setlist).songFontSize * ⟨6, 10⟩)) := by
  have hcalc : calculateFontSizes setlist = calculateSinglePageSizes setlist := by
    unfold calculateFontSizes
    rw [if_pos h9]
  rw [hcalc]
  unfold calculateSinglePageSizes
  set s := searchLoop (fitsSinglePage setlist) sizeCandidates ⟨32, 1⟩ with hs
  by_cases hfit : ∃ c ∈ sizeCandidates, fitsSinglePage setlist c = true
  · obtain ⟨hmem, hfits, hmax⟩ :=
      searchLoop_first_fit (fitsSinglePage setlist) sizeCandidates ⟨32, 1⟩ (by decide) hfit
    have h24 : Q.ble ⟨24, 1⟩ s = true := sizeCandidates_ge24 s hmem
    have hq : Q.qmax ⟨24, 1⟩ s = s := by
      unfold Q.qmax
      rw [if_pos h24]
    refine ⟨⟨Q.ble_qmax_left _ _, Q.ble_qmax_left _ _, ⟩, fun c hc hf => ?_,
      fun _ => ?_, fun hno => ?_, ?_⟩
    · show Q.ble c (Q.qmax ⟨24, 1⟩ s) = true
      rw [hq]
      exact hmax c hc hf
    · show Q.qmax ⟨24, 1⟩ s ∈ sizeCandidates ∧
        fitsSinglePage setlist (Q.qmax ⟨24, 1⟩ s) = true
      rw [hq]
      exact ⟨hmem, hfits⟩
    · exfalso
      rcases hfit with ⟨c, hc, hf⟩
      rw [hno c hc] at hf
      exact absurd hf (by simp)
    · show Q.qmax ⟨14, 1⟩ (Q.qmax ⟨16, 1⟩ (s * ⟨6, 10⟩)) =
        Q.qmax ⟨14, 1⟩ (Q.qmax ⟨16, 1⟩ (Q.qmax ⟨24, 1⟩ s * ⟨6, 10⟩))
      rw [hq]
  · have hnone : ∀ c ∈ sizeCandidates, fitsSinglePage setlist c = false := by
      intro c hc
      cases hf : fitsSinglePage setlist c with
      | false => rfl
      | true => exact absurd ⟨c, hc, hf⟩ hfit
    have hs24 : s = ⟨24, 1⟩ := by
      rw [hs, searchLoop_all_false _ _ _ hnone]
      decide
    refine ⟨⟨?_, ?_⟩, fun c hc hf => ?_, fun hex => ?_, fun _ => ?_, ?_⟩
    · show Q.ble ⟨24, 1⟩ (Q.qmax ⟨24, 1⟩ s) = true
      rw [hs24]
      decide
    · show Q.ble ⟨14, 1⟩ (Q.qmax ⟨14, 1⟩ (Q.qmax ⟨16, 1⟩ (s * ⟨6, 10⟩))) = true
      rw [hs24]
      decide
    · rw [hnone c hc] at hf
      exact absurd hf (by simp)
    · exfalso
      exact hfit hex
    · show Q.qmax ⟨24, 1⟩ s = ⟨24, 1⟩
      rw [hs24]
      decide
    · show Q.qmax ⟨14, 1⟩ (Q.qmax ⟨16, 1⟩ (s * ⟨6, 10⟩)) =
        Q.qmax ⟨14, 1⟩ (Q.qmax ⟨16, 1⟩ (Q.qmax ⟨24, 1⟩ s * ⟨6, 10⟩))
      rw [hs24]
      decide

/-- 40 midshow breaks (0 songs): a single-page setlist no candidate fits. -/
def breakOnlySetlist : List SetlistItem := List.replicate 40 (midshowItem "Break")

/-- Counterexample to claim C2 as stated: this setlist has at most 9 songs,
yet the returned `songFontSize` 24 does not satisfy the height budget — no
candidate does — so it is not "the maximum candidate whose estimated stacked
height fits". -/
theorem claim2_counterexample :
    songCountOf breakOnlySetlist ≤ 9 ∧
    (calculateFontSizes breakOnlySetlist).songFontSize = ⟨24, 1⟩ ∧
    fitsSinglePage breakOnlySetlist ⟨24, 1⟩ = false ∧
    sizeCandidates.all (fun c => !(fitsSinglePage breakOnlySetlist c)) = true := by
  decide

/-- Three plain songs for the witness. -/
def threeSongSetlist : List SetlistItem :=
  [songItem "Alpha", songItem "Beta", songItem "Gamma"]

/-- Witness for the amended C2 on a 3-song setlist (for which the largest
candidate 60 already fits). -/
theorem claim2_amended_witness :
    songCountOf threeSongSetlist ≤ 9 ∧
    ((Q.ble ⟨24, 1⟩ (calculateFontSizes threeSongSetlist).songFontSize = true ∧
      Q.ble ⟨14, 1⟩ (calculateFontSizes threeSongSetlist).midshowFontSize = true) ∧
    (∀ c ∈ sizeCandidates, fitsSinglePage threeSongSetlist c = true →
      Q.ble c (calculateFontSizes threeSongSetlist).songFontSize = true) ∧
    ((∃ c ∈ sizeCandidates, fitsSinglePage threeSongSetlist c = true) →
      (calculateFontSizes threeSongSetlist).songFontSize ∈ sizeCandidates ∧
        fitsSinglePage threeSongSetlist (calculateFontSizes threeSongSetlist).songFontSize
          = true) ∧
    ((∀ c ∈ sizeCandidates, fitsSinglePage threeSongSetlist c = false) →
      (calculateFontSizes threeSongSetlist).songFontSize = ⟨24, 1⟩) ∧
    (calculateFontSizes threeSongSetlist).midshowFontSize =
      Q.qmax ⟨14, 1⟩ (Q.qmax ⟨16, 1⟩
        ((calculateFontSizes threeSongSetlist).songFontSize * ⟨6, 10⟩))) :=
  ⟨by decide, claim2_amended threeSongSetlist (by decide)⟩

/-- Full characterization of the midshow while-loop: with enough fuel it
returns `baseFontSize - n` for the least `n` at which the text fits or the
size is no longer above 8pt; every earlier size was both too wide and above
8pt. -/
theorem midshowLoop_spec (measure : Q → String → Q) (text : String) (maxWidth : Q) :
    ∀ (fuel : Nat) (fs : Q), 1 ≤ fs.den → fs.num - 8 * fs.den ≤ (fuel : Int) →
      ∃ n : Nat,
        midshowLoop measure text maxWidth fuel fs =
          ⟨fs.num - (n : Int) * fs.den, fs.den⟩ ∧
        (Q.blt maxWidth (measure ⟨fs.num - (n : Int) * fs.den, fs.den⟩ text) = false ∨
          Q.blt ⟨8, 1⟩ (⟨fs.num - (n : Int) * fs.den, fs.den⟩ : Q) = false) ∧
        ∀ k : Nat, k < n →
          Q.blt maxWidth (measure ⟨fs.num - (k : Int) * fs.den, fs.den⟩ text) = true ∧
          Q.blt ⟨8, 1⟩ (⟨fs.num - (k : Int) * fs.den, fs.den⟩ : Q) = true := by
  intro fuel
  induction fuel with
  | zero =>
    intro fs hden hb
    have h0 : (⟨fs.num - ((0 : Nat) : Int) * fs.den, fs.den⟩ : Q) = fs := by
      cases fs
      simp
    refine ⟨0, ?_, ?_, fun k hk => absurd hk (by omega)⟩
    · rw [h0]
      rfl
    · right
      rw [h0]
      simp [Q.blt]
      omega
  | succ fuel ih =>
    intro fs hden hb
    by_cases hg : (Q.blt maxWidth (measure fs text) && Q.blt ⟨8, 1⟩ fs) = true
    · rw [midshowLoop, if_pos hg]
      have hfs1 : (fs - ⟨1, 1⟩ : Q) = ⟨fs.num - fs.den, fs.den⟩ := by
        show Q.sub fs ⟨1, 1⟩ = _
        unfold Q.sub
        simp
      have hden1 : (1 : Int) ≤ (⟨fs.num - fs.den, fs.den⟩ : Q).den := hden
      have hb1 : (⟨fs.num - fs.den, fs.den⟩ : Q).num -
          8 * (⟨fs.num - fs.den, fs.den⟩ : Q).den ≤ (fuel : Int) := by
        show fs.num - fs.den - 8 * fs.den ≤ (fuel : Int)
        push_cast at hb
        omega
      obtain ⟨n, h1, h2, h3⟩ := ih ⟨fs.num - fs.den, fs.den⟩ hden1 hb1
      have hco : ∀ j : Nat,
          (⟨(⟨fs.num - fs.den, fs.den⟩ : Q).num -
              (j : Int) * (⟨fs.num - fs.den, fs.den⟩ : Q).den,
            (⟨fs.num - fs.den, fs.den⟩ : Q).den⟩ : Q) =
          ⟨fs.num - ((j + 1 : Nat) : Int) * fs.den, fs.den⟩ := by
        intro j
        show (⟨fs.num - fs.den - (j : Int) * fs.den, fs.den⟩ : Q) = _
        congr 1
        push_cast
        ring
      refine ⟨n + 1, ?_, ?_, ?_⟩
      · rw [hfs1, h1, hco n]
      · rw [← hco n]
        exact h2
      · intro k hk
        cases k with
        | zero =>
          have h0 : (⟨fs.num - ((0 : Nat) : Int) * fs.den, fs.den⟩ : Q) = fs := by
            cases fs
            simp
          rw [h0]
          rw [Bool.and_eq_true] at hg
          exact ⟨hg.1, hg.2⟩
        | succ j =>
          have hj := h3 j (by omega)
          rw [hco j] at hj
          exact hj
    · rw [midshowLoop, if_neg hg]
      have h0 : (⟨fs.num - ((0 : Nat) : Int) * fs.den, fs.den⟩ : Q) = fs := by
        cases fs
        simp
      refine ⟨0, by rw [h0], ?_, fun k hk => absurd hk (by omega)⟩
      rw [h0]
      cases hA : Q.blt maxWidth (measure fs text) with
      | false => exact Or.inl rfl
      | true =>
        cases hB : Q.blt ⟨8, 1⟩ fs with
        | false => exact Or.inr rfl
        | true =>
          exact absurd (by rw [Bool.and_eq_true]; exact ⟨hA, hB⟩) hg

/-- Amended claim C9: each break label's drawn size starts from the plan's
break size and decreases in 1pt steps while the transliterated label's
measured width exceeds the break column *and* the size still exceeds 8pt; a
fitting label keeps the plan size (the case `n = 0`), and a long label stops
at the first 1pt-grid value that fits or is ≤ 8pt — for a fractional plan
size this stopping value lies strictly below 8pt (but above 7pt), not at the
8pt floor the claim states. -/
theorem claim9_amended (measure : Q → String → Q) (text : String)
    (maxWidth base : Q) (hden : 1 ≤ base.den) :
    ∃ n : Nat,
      calculateMidshowFontSize measure text maxWidth base =
        ⟨base.num - (n : Int) * base.den, base.den⟩ ∧
      (Q.blt maxWidth (measure ⟨base.num - (n : Int) * base.den, base.den⟩
          (convertCzechCharacters text)) = false ∨
        Q.blt ⟨8, 1⟩ (⟨base.num - (n : Int) * base.den, base.den⟩ : Q) = false) ∧
      ∀ k : Nat, k < n →
        Q.blt maxWidth (measure ⟨base.num - (k : Int) * base.den, base.den⟩
          (convertCzechCharacters text)) = true ∧
        Q.blt ⟨8, 1⟩ (⟨base.num - (k : Int) * base.den, base.den⟩ : Q) = true := by
  unfold calculateMidshowFontSize
  exact midshowLoop_spec measure (convertCzechCharacters text) maxWidth
    ((base.num - 8 * base.den).toNat + 1) base hden (by push_cast; omega)

/-- Nine songs and six breaks (a song first): the single-page search settles
on 52pt songs with a fractional 31.2pt break plan size. -/
def mixedSetlist : List SetlistItem :=
  [songItem "Song 1", midshowItem "Break 1", songItem "Song 2", midshowItem "Break 2",
   songItem "Song 3", midshowItem "Break 3", songItem "Song 4", midshowItem "Break 4",
   songItem "Song 5", midshowItem "Break 5", songItem "Song 6", midshowItem "Break 6",
   songItem "Song 7", songItem "Song 8", songItem "Song 9"]

/-- Counterexample to claim C9 as stated: for this setlist the plan's break
size is 31.2pt; a label that never fits is stepped 31.2, 30.2, …, 8.2, 7.2
and is drawn at 7.2pt — *below* the claimed 8pt floor (the loop guard
`fontSize > 8` stops at the first value ≤ 8 on the 1pt grid, which is not 8
itself for a fractional start). -/
theorem claim9_counterexample :
    songCountOf mixedSetlist ≤ 9 ∧
    (calculateFontSizes mixedSetlist).midshowFontSize = ⟨312, 10⟩ ∧
    calculateMidshowFontSize hugeMeasure "Break 1" (contentWidth - ⟨15, 1⟩) ⟨312, 10⟩ =
      ⟨72, 10⟩ ∧
    Q.blt ⟨72, 10⟩ ⟨8, 1⟩ = true ∧
    Op.setFontSize ⟨72, 10⟩ ∈ addSetlistContent hugeMeasure mixedSetlist := by
  decide

/-- Witness for the amended C9 at the counterexample configuration. -/
theorem claim9_amended_witness :
    ∃ n : Nat,
      calculateMidshowFontSize hugeMeasure "Break 1" (contentWidth - ⟨15, 1⟩) ⟨312, 10⟩ =
        ⟨312 - (n : Int) * 10, 10⟩ ∧
      (Q.blt (contentWidth - ⟨15, 1⟩) (hugeMeasure ⟨312 - (n : Int) * 10, 10⟩
          (convertCzechCharacters "Break 1")) = false ∨
        Q.blt ⟨8, 1⟩ (⟨312 - (n : Int) * 10, 10⟩ : Q) = false) ∧
      ∀ k : Nat, k < n →
        Q.blt (contentWidth - ⟨15, 1⟩) (hugeMeasure ⟨312 - (k : Int) * 10, 10⟩
          (convertCzechCharacters "Break 1")) = true ∧
        Q.blt ⟨8, 1⟩ (⟨312 - (k : Int) * 10, 10⟩ : Q) = true :=
  claim9_amended hugeMeasure "Break 1" (contentWidth - ⟨15, 1⟩) ⟨312, 10⟩ (by decide)

/-- Claim C8: exporting an empty setlist is a no-op — the guard returns
before any document is created, so no drawing surface exists, nothing is
drawn, and no file is saved. -/
theorem claim8_empty_export (measure : Q → String → Q)
    (songs windowSongs : Option (List SongRec)) (today : String) :
    exportSetlist measure [] songs windowSongs today = none :=
  rfl
